import Mathlib

/-!
Verification of the BOLT-12 offers subsystem against its specification.

Shallow embedding of the offer-to-invoice exchange engine
(`plugins` fetchinvoice code: `recv_onion_message`, `json_fetchinvoice`)
and the lightningd side (`lightningd/offer.c`: `json_disableoffer`,
`prev_payment`, `param_b12_invreq`, `json_createinvoicerequest`).

Machine integers (u32/u64) are modelled as `Nat` with explicit `% 2^w`
or overflow checks where the C code's behaviour depends on the width.
Tal byte arrays and strings are `List Nat` / `List Char`; a `NULL`
pointer is `Option.none`.  Crypto primitives (Schnorr verification,
x-only key tweaking, merkle roots) are oracles passed in as function
arguments: the theorems hold for every instantiation of them.
-/

/-- Opaque byte strings (`u8 *` tal arrays in the C source). -/
abbrev Bytes := List Nat

/-- UTF-8 text fields (`char *` tal arrays, not NUL-terminated; `tal_bytelen`
is the length).  Modelled as a list of characters. -/
abbrev Str := List Char

/-- The `struct recurrence` of the offer TLV: a time unit and a period count. -/
structure Recurrence where
  time_unit : Nat
  period : Nat
deriving DecidableEq, Repr

/-- The `struct recurrence_base`: whether any period may start the series, and
the series base time. -/
structure RecurrenceBase where
  start_any_period : Nat
  basetime : Nat
deriving DecidableEq, Repr

/-- The `struct tlv_offer`, restricted to the fields read by the embedded code.
Absent TLV fields are `none` (NULL pointers in C).  `node_id` and
`payer_key` are x-only public keys, kept abstract as `Nat` identifiers. -/
structure Offer where
  node_id : Option Nat
  description : Option Str
  vendor : Option Str
  amount : Option Nat
  currency : Option Bytes
  quantity_min : Option Nat
  quantity_max : Option Nat
  recurrence : Option Recurrence
  recurrence_base : Option RecurrenceBase
  recurrence_limit : Option Nat
  absolute_expiry : Option Nat
  send_invoice : Bool
deriving DecidableEq, Repr

/-- The `struct tlv_invoice_request`, restricted to the fields the embedded code
reads or writes. -/
structure InvoiceRequest where
  offer_id : Option Bytes
  amount : Option Nat
  quantity : Option Nat
  recurrence_counter : Option Nat
  recurrence_start : Option Nat
  payer_key : Option Nat
  payer_info : Option Bytes
  chains : List Bytes
  features : Bytes
deriving DecidableEq, Repr

/-- The `struct tlv_invoice`, restricted to the fields the embedded code reads.
`signature` is the raw 64-byte Schnorr signature (present or absent); its
cryptographic validity is judged by the verifier oracle. -/
structure Invoice where
  node_id : Option Nat
  signature : Option Bytes
  amount : Option Nat
  offer_id : Option Bytes
  quantity : Option Nat
  recurrence_counter : Option Nat
  recurrence_start : Option Nat
  payer_key : Option Nat
  payer_info : Option Bytes
  recurrence_basetime : Option Nat
  description : Option Str
  vendor : Option Str
deriving DecidableEq, Repr

/-- The `struct sent`: one outstanding request, keyed by its reply blinding. -/
structure Sent where
  offer : Offer
  invreq : InvoiceRequest
deriving DecidableEq, Repr

/-- The stable error codes used by the embedded commands
(`common/jsonrpc_errors.h` constants, kept symbolic). -/
inductive ErrCode where
  | invalid_params
  | offer_expired
  | offer_already_disabled
  | offer_bad_invreq_reply
  | lightningd
deriving DecidableEq, Repr

/-- The helper `field_diff_` from the plugin: returns the field name when exactly one
side is set, or both are set with different bytes; `none` when equal.
`Option` equality captures both the NULL-ness comparison and `memeq`. -/
def field_diff {α : Type} [DecidableEq α] (a b : Option α) (fieldname : String) :
    Option String :=
  if a = b then none else some fieldname

/-- Modelled from the spec: `mul_overflows_u64`, the u64 overflow check of
`common/overflows.h` (not under src/); true exactly when the mathematical
product does not fit in 64 bits. -/
def mul_overflows_u64 (a b : Nat) : Bool :=
  decide (2 ^ 64 ≤ a * b)

/-- The helper `description_is_appended(a, b)`: true when `b` is `a` with something
appended — both present, `b` at least as long, and the first `len a` bytes
of `b` equal `a`. -/
def description_is_appended (a b : Option Str) : Bool :=
  match a, b with
  | none, _ => false
  | _, none => false
  | some a, some b =>
    if b.length < a.length then false
    else decide (b.take a.length = a)

/-- The `expected_amount` computation of `recv_onion_message`: when the offer
has an `amount` and no `currency`, the expectation is the offer amount times
the request's quantity (when one was sent), with the u64 overflow check;
otherwise there is no expectation. -/
def expected_amount (offer : Offer) (invreq : InvoiceRequest) :
    Except String (Option Nat) :=
  match offer.amount, offer.currency with
  | some a, none =>
    match invreq.quantity with
    | some q =>
      if mul_overflows_u64 a q then .error "quantity overflow"
      else .ok (some (a * q))
    | none => .ok (some a)
  | _, _ => .ok none

/-- One entry of the `changes` record for the description field. -/
inductive DescChange where
  | appended (suffix : Str)
  | removed (desc : Str)
  | replaced (desc : Str)
deriving DecidableEq, Repr

/-- One entry of the `changes` record for the vendor field. -/
inductive VendorChange where
  | removed (v : Str)
  | replaced (v : Str)
deriving DecidableEq, Repr

/-- The `changes` object reported to the caller on a validated invoice. -/
structure Changes where
  description : Option DescChange
  vendor : Option VendorChange
  msat : Option Nat
deriving DecidableEq, Repr

/-- The `next_period` block (paywindow fields are computed by
`offer_period_paywindow`, which is outside the embedded sources, and are
not modelled). -/
structure NextPeriod where
  counter : Nat
  starttime : Nat
  endtime : Nat
deriving DecidableEq, Repr

/-- The success payload of `fetchinvoice` (the invoice string itself is the
re-encoded input invoice and carries no extra information). -/
structure FetchResult where
  changes : Changes
  next_period : Option NextPeriod
deriving DecidableEq, Repr

/-- The description part of the `changes` record (source lines 495-511):
nothing when the descriptions are field-equal, else `description_appended`
with the suffix when the invoice merely appended, else `description_removed`
when the invoice dropped the description, else the full new description. -/
def description_change (a b : Option Str) : Option DescChange :=
  if field_diff a b "description" = none then none
  else if description_is_appended a b then
    some (.appended ((b.getD []).drop (a.getD []).length))
  else
    match b with
    | none => some (.removed (a.getD []))
    | some d => some (.replaced d)

/-- The vendor part of the `changes` record (source lines 517-526):
no "appended" special case. -/
def vendor_change (a b : Option Str) : Option VendorChange :=
  if field_diff a b "vendor" = none then none
  else
    match b with
    | none => some (.removed (a.getD []))
    | some v => some (.replaced v)

/-- The `msat` part of the `changes` record (source lines 531-535): the
invoice amount is reported unless it is exactly the expectation. -/
def msat_change (ea : Option Nat) (invAmount : Nat) : Option Nat :=
  if ea = some invAmount then none else some invAmount

/-- The `next_period` block computation (source lines 539-574).  The period
start function `ps basetime n r` stands for `offer_period_start`
(`common/bolt12.c`, outside the embedded sources); every theorem below is
generic in it.  The C code dereferences `invreq->recurrence_counter` and the
invoice basetime, which are always present on this path for requests this
engine sent; absent values are read as 0. -/
def next_period_block (ps : Nat → Nat → Recurrence → Nat) (offer : Offer)
    (invreq : InvoiceRequest) (basetime : Nat) : Option NextPeriod :=
  match offer.recurrence with
  | none => none
  | some r =>
    let next_counter := invreq.recurrence_counter.getD 0 + 1
    let next_period_idx :=
      match invreq.recurrence_start with
      | some s => s + next_counter
      | none => next_counter
    let tell :=
      match offer.recurrence_limit with
      | none => true
      | some lim => decide (next_period_idx ≤ lim)
    if tell then
      some { counter := next_counter,
             starttime := ps basetime next_period_idx r,
             endtime := ps basetime (next_period_idx + 1) r - 1 }
    else none

/-- Assembles the success payload for a fully validated invoice. -/
def build_result (ps : Nat → Nat → Recurrence → Nat) (offer : Offer)
    (invreq : InvoiceRequest) (inv : Invoice) (ea : Option Nat) : FetchResult :=
  { changes := { description := description_change offer.description inv.description,
                 vendor := vendor_change offer.vendor inv.vendor,
                 msat := msat_change ea (inv.amount.getD 0) },
    next_period := next_period_block ps offer invreq (inv.recurrence_basetime.getD 0) }

/-- The invoice validation and result construction of `recv_onion_message`
(source lines 401-576), translated check by check in source order; an error
is the `badfield` string of the `goto badinv` path.  `sigOK` is the
BIP-340 verifier oracle for `secp256k1_schnorrsig_verify` applied to the
sighash of the invoice's merkle root under `inv.node_id`. -/
def process_invoice (sigOK : Invoice → Bool) (ps : Nat → Nat → Recurrence → Nat)
    (offer : Offer) (invreq : InvoiceRequest) (inv : Invoice) :
    Except String FetchResult :=
  if inv.node_id ≠ offer.node_id then .error "node_id"
  else if inv.signature = none ∨ sigOK inv = false then .error "signature"
  else if inv.amount = none then .error "amount"
  else if invreq.offer_id ≠ inv.offer_id then .error "offer_id"
  else if invreq.quantity ≠ inv.quantity then .error "quantity"
  else if invreq.recurrence_counter ≠ inv.recurrence_counter then .error "recurrence_counter"
  else if invreq.recurrence_start ≠ inv.recurrence_start then .error "recurrence_start"
  else if invreq.payer_key ≠ inv.payer_key then .error "payer_key"
  else if invreq.payer_info ≠ inv.payer_info then .error "payer_info"
  else
    match expected_amount offer invreq with
    | .error bad => .error bad
    | .ok ea =>
      if invreq.recurrence_counter.isSome ∧ inv.recurrence_basetime = none then
        .error "recurrence_basetime"
      else .ok (build_result ps offer invreq inv ea)

/-- The inbound onion message as the hook sees it: an optional reply
blinding, and optional `invoice_error` / `invoice` payloads.  A present but
undecodable payload is `some none` (the C code hex-decodes the token and
then may fail `fromwire`). -/
structure OnionMessage where
  blinding_in : Option Nat
  invoice_error : Option (Option Bytes)
  invoice : Option (Option Invoice)

/-- What happens to the initiating `fetchinvoice` command. -/
inductive CmdOutcome where
  | fail (code : ErrCode) (msg : String)
  | finish (res : FetchResult)
deriving DecidableEq, Repr

/-- Result of the hook invocation: whether the hook acknowledged the message
to the transport (every path of the source returns
`command_hook_success`), and the action taken on the matched command. -/
structure RecvResult where
  hook_ok : Bool
  cmd : Option CmdOutcome
deriving DecidableEq, Repr

/-- The message of the `badinv` failure path, `"Incorrect %s field in %.*s"`
(the trailing raw invoice dump carries no further information). -/
def badinv_msg (f : String) : String := "Incorrect " ++ f ++ " field"

/-- The hook `recv_onion_message` (source lines 298-588): drop messages without a
blinding or without a matching outstanding request; surface a remote
`invoice_error`; fail the command when neither payload is present; then
decode and validate the invoice.  `table` is `find_sent` over the
outstanding list. -/
def recv_onion_message (sigOK : Invoice → Bool) (ps : Nat → Nat → Recurrence → Nat)
    (table : Nat → Option Sent) (m : OnionMessage) : RecvResult :=
  match m.blinding_in with
  | none => ⟨true, none⟩
  | some b =>
    match table b with
    | none => ⟨true, none⟩
    | some sent =>
      if m.invoice_error.isSome then
        ⟨true, some (.fail .offer_bad_invreq_reply "Remote node sent failure message")⟩
      else
        match m.invoice with
        | none =>
          ⟨true, some (.fail .offer_bad_invreq_reply
            "Neither invoice nor invoice_request_failed in reply")⟩
        | some none =>
          ⟨true, some (.fail .offer_bad_invreq_reply (badinv_msg "invoice"))⟩
        | some (some inv) =>
          match process_invoice sigOK ps sent.offer sent.invreq inv with
          | .error bad => ⟨true, some (.fail .offer_bad_invreq_reply (badinv_msg bad))⟩
          | .ok res => ⟨true, some (.finish res)⟩

/-- Generic first-failure over an ordered list of named checks: the name of
the first check whose condition is false, `none` when all pass. -/
def firstFail : List (String × Bool) → Option String
  | [] => none
  | (name, ok) :: rest => if ok then firstFail rest else some name

/-- Whether a quantity-overflow failure occurs in `expected_amount`. -/
def overflow_check (offer : Offer) (invreq : InvoiceRequest) : Bool :=
  match offer.amount, offer.currency, invreq.quantity with
  | some a, none, some q => mul_overflows_u64 a q
  | _, _, _ => false

/-- The validation checks actually performed by the code, as an ordered
list of named pass-conditions: the claimed field checks with the
quantity-overflow check of the `expected_amount` computation interposed
between `payer_info` and `recurrence_basetime`. -/
def invoice_checks (sigOK : Invoice → Bool) (offer : Offer)
    (invreq : InvoiceRequest) (inv : Invoice) : List (String × Bool) :=
  [ ("node_id", decide (inv.node_id = offer.node_id)),
    ("signature", inv.signature.isSome && sigOK inv),
    ("amount", inv.amount.isSome),
    ("offer_id", decide (invreq.offer_id = inv.offer_id)),
    ("quantity", decide (invreq.quantity = inv.quantity)),
    ("recurrence_counter", decide (invreq.recurrence_counter = inv.recurrence_counter)),
    ("recurrence_start", decide (invreq.recurrence_start = inv.recurrence_start)),
    ("payer_key", decide (invreq.payer_key = inv.payer_key)),
    ("payer_info", decide (invreq.payer_info = inv.payer_info)),
    ("quantity overflow", !overflow_check offer invreq),
    ("recurrence_basetime",
      !(invreq.recurrence_counter.isSome && inv.recurrence_basetime.isNone)) ]

/-- Follows the claim's words: the validation order stated by the claim,
with no check between the `payer_info` equality and the
`recurrence_basetime` presence check. -/
def claim_validation (sigOK : Invoice → Bool) (offer : Offer)
    (invreq : InvoiceRequest) (inv : Invoice) : Option String :=
  firstFail
    [ ("node_id", decide (inv.node_id = offer.node_id)),
      ("signature", inv.signature.isSome && sigOK inv),
      ("amount", inv.amount.isSome),
      ("offer_id", decide (invreq.offer_id = inv.offer_id)),
      ("quantity", decide (invreq.quantity = inv.quantity)),
      ("recurrence_counter", decide (invreq.recurrence_counter = inv.recurrence_counter)),
      ("recurrence_start", decide (invreq.recurrence_start = inv.recurrence_start)),
      ("payer_key", decide (invreq.payer_key = inv.payer_key)),
      ("payer_info", decide (invreq.payer_info = inv.payer_info)),
      ("recurrence_basetime",
        !(invreq.recurrence_counter.isSome && inv.recurrence_basetime.isNone)) ]

/-- The error projection of a validation run. -/
def errorOf {α : Type} : Except String α → Option String
  | .error s => some s
  | .ok _ => none

/-- Auxiliary: when the overflow condition fires, `expected_amount` fails
with the `"quantity overflow"` bad field. -/
theorem expected_amount_overflow (offer : Offer) (invreq : InvoiceRequest)
    (h : overflow_check offer invreq = true) :
    expected_amount offer invreq = .error "quantity overflow" := by
  unfold overflow_check at h
  unfold expected_amount
  cases hA : offer.amount <;> cases hC : offer.currency <;>
    cases hQ : invreq.quantity <;> rw [hA, hC, hQ] at h <;> simp_all

/-- Auxiliary: when the overflow condition does not fire, `expected_amount`
succeeds. -/
theorem expected_amount_ok (offer : Offer) (invreq : InvoiceRequest)
    (h : overflow_check offer invreq = false) :
    ∃ ea, expected_amount offer invreq = .ok ea := by
  unfold overflow_check at h
  unfold expected_amount
  cases hA : offer.amount <;> cases hC : offer.currency <;>
    cases hQ : invreq.quantity <;> rw [hA, hC, hQ] at h <;> simp_all

/-- C1 (amended): the validation run by `recv_onion_message` on a decoded
invoice is exactly the first-failure of the claimed ordered checks with the
quantity-overflow check interposed between the `payer_info` equality and
the `recurrence_basetime` presence check. -/
theorem recv_validation_order (sigOK : Invoice → Bool)
    (ps : Nat → Nat → Recurrence → Nat) (offer : Offer)
    (invreq : InvoiceRequest) (inv : Invoice) :
    errorOf (process_invoice sigOK ps offer invreq inv) =
      firstFail (invoice_checks sigOK offer invreq inv) := by
  unfold process_invoice invoice_checks
  by_cases h1 : inv.node_id = offer.node_id
  case neg => simp [firstFail, h1, errorOf]
  by_cases h2 : inv.signature = none ∨ sigOK inv = false
  case pos => rcases h2 with h2 | h2 <;> simp [firstFail, h1, h2, errorOf]
  push_neg at h2
  obtain ⟨h2a, h2b'⟩ := h2
  have h2b : sigOK inv = true := by revert h2b'; cases sigOK inv <;> simp
  have h2s : inv.signature.isSome = true := Option.isSome_iff_ne_none.mpr h2a
  by_cases h3 : inv.amount = none
  case pos => simp [firstFail, h1, h2a, h2b, h2s, h3, errorOf]
  have h3s : inv.amount.isSome = true := Option.isSome_iff_ne_none.mpr h3
  by_cases h4 : invreq.offer_id = inv.offer_id
  case neg => simp [firstFail, h1, h2a, h2b, h2s, h3, h3s, h4, errorOf]
  by_cases h5 : invreq.quantity = inv.quantity
  case neg => simp [firstFail, h1, h2a, h2b, h2s, h3, h3s, h4, h5, errorOf]
  by_cases h6 : invreq.recurrence_counter = inv.recurrence_counter
  case neg => simp [firstFail, h1, h2a, h2b, h2s, h3, h3s, h4, h5, h6, errorOf]
  by_cases h7 : invreq.recurrence_start = inv.recurrence_start
  case neg => simp [firstFail, h1, h2a, h2b, h2s, h3, h3s, h4, h5, h6, h7, errorOf]
  by_cases h8 : invreq.payer_key = inv.payer_key
  case neg => simp [firstFail, h1, h2a, h2b, h2s, h3, h3s, h4, h5, h6, h7, h8, errorOf]
  by_cases h9 : invreq.payer_info = inv.payer_info
  case neg => simp [firstFail, h1, h2a, h2b, h2s, h3, h3s, h4, h5, h6, h7, h8, h9, errorOf]
  by_cases hov : overflow_check offer invreq = true
  case pos =>
    rw [expected_amount_overflow offer invreq hov]
    simp [firstFail, h1, h2a, h2b, h2s, h3, h3s, h4, h5, h6, h7, h8, h9, hov, errorOf]
  have hovf : overflow_check offer invreq = false := by
    revert hov; cases overflow_check offer invreq <;> simp
  obtain ⟨ea, hea⟩ := expected_amount_ok offer invreq hovf
  rw [hea]
  by_cases h11 : invreq.recurrence_counter.isSome ∧ inv.recurrence_basetime = none
  case pos =>
    obtain ⟨hc, hb⟩ := h11
    have hc2 : inv.recurrence_counter.isSome = true := by rw [← h6]; exact hc
    have hcne : inv.recurrence_counter ≠ none := Option.isSome_iff_ne_none.mp hc2
    simp [firstFail, h1, h2a, h2b, h2s, h3, h3s, h4, h5, h6, h7, h8, h9, hovf, errorOf,
          hc, hc2, hcne, hb]
  case neg =>
    simp only [if_neg h11]
    have hbt : (invreq.recurrence_counter.isSome && inv.recurrence_basetime.isNone) = false := by
      cases hc : invreq.recurrence_counter.isSome with
      | false => simp
      | true =>
        cases hb : inv.recurrence_basetime with
        | none => exact absurd ⟨hc, hb⟩ h11
        | some v => simp [hb]
    simp [firstFail, h1, h2a, h2b, h2s, h3, h3s, h4, h5, h6, h7, h8, h9, hovf, hbt, errorOf]
    have hdisj : inv.recurrence_counter = none ∨ inv.recurrence_basetime.isSome = true := by
      cases hc : inv.recurrence_counter with
      | none => exact Or.inl rfl
      | some c =>
        cases hb : inv.recurrence_basetime with
        | some v => exact Or.inr (by simp)
        | none => exact absurd ⟨by rw [h6, hc]; rfl, hb⟩ h11
    rcases hdisj with h | h <;> simp [h]

/-- A fixed-amount offer with quantity and recurrence, whose amount times a
permissible quantity overflows u64. -/
def c1Offer : Offer :=
  { node_id := some 1, description := some "coffee".toList, vendor := none,
    amount := some (2 ^ 33), currency := none,
    quantity_min := none, quantity_max := some (2 ^ 33),
    recurrence := some ⟨1, 30⟩, recurrence_base := none, recurrence_limit := none,
    absolute_expiry := none, send_invoice := false }

/-- The request sent for `c1Offer`: quantity `2^33`, second recurrence
period. -/
def c1Invreq : InvoiceRequest :=
  { offer_id := some [7], amount := none, quantity := some (2 ^ 33),
    recurrence_counter := some 1, recurrence_start := none,
    payer_key := some 5, payer_info := some [1, 2],
    chains := [], features := [] }

/-- A reply invoice matching `c1Invreq` on every compared field but lacking
`recurrence_basetime`. -/
def c1Inv : Invoice :=
  { node_id := some 1, signature := some [0], amount := some 5,
    offer_id := some [7], quantity := some (2 ^ 33),
    recurrence_counter := some 1, recurrence_start := none,
    payer_key := some 5, payer_info := some [1, 2],
    recurrence_basetime := none, description := some "coffee".toList,
    vendor := none }

/-- C1 (counterexample): on this input every claimed check up to and
including the `payer_info` equality passes and the first claimed check to
fail is `recurrence_basetime`, yet the code fails the command naming
`quantity overflow` — a check the claim's list does not contain, performed
before the `recurrence_basetime` check, so the failure message does not name
the first failing claimed check. -/
theorem recv_validation_order_counterexample :
    process_invoice (fun _ => true) (fun b n _ => b + n) c1Offer c1Invreq c1Inv =
      .error "quantity overflow"
    ∧ claim_validation (fun _ => true) c1Offer c1Invreq c1Inv =
      some "recurrence_basetime" := by
  exact ⟨rfl, rfl⟩

/-- Auxiliary: a successful validation determines the result payload: it is
`build_result` at the successfully computed expected amount. -/
theorem process_invoice_ok (sigOK : Invoice → Bool) (ps : Nat → Nat → Recurrence → Nat)
    (offer : Offer) (invreq : InvoiceRequest) (inv : Invoice) (res : FetchResult)
    (h : process_invoice sigOK ps offer invreq inv = .ok res) :
    ∃ ea, expected_amount offer invreq = .ok ea ∧
      res = build_result ps offer invreq inv ea := by
  unfold process_invoice at h
  by_cases h1 : inv.node_id ≠ offer.node_id
  · rw [if_pos h1] at h; exact absurd h (by simp)
  rw [if_neg h1] at h
  by_cases h2 : inv.signature = none ∨ sigOK inv = false
  · rw [if_pos h2] at h; exact absurd h (by simp)
  rw [if_neg h2] at h
  by_cases h3 : inv.amount = none
  · rw [if_pos h3] at h; exact absurd h (by simp)
  rw [if_neg h3] at h
  by_cases h4 : invreq.offer_id ≠ inv.offer_id
  · rw [if_pos h4] at h; exact absurd h (by simp)
  rw [if_neg h4] at h
  by_cases h5 : invreq.quantity ≠ inv.quantity
  · rw [if_pos h5] at h; exact absurd h (by simp)
  rw [if_neg h5] at h
  by_cases h6 : invreq.recurrence_counter ≠ inv.recurrence_counter
  · rw [if_pos h6] at h; exact absurd h (by simp)
  rw [if_neg h6] at h
  by_cases h7 : invreq.recurrence_start ≠ inv.recurrence_start
  · rw [if_pos h7] at h; exact absurd h (by simp)
  rw [if_neg h7] at h
  by_cases h8 : invreq.payer_key ≠ inv.payer_key
  · rw [if_pos h8] at h; exact absurd h (by simp)
  rw [if_neg h8] at h
  by_cases h9 : invreq.payer_info ≠ inv.payer_info
  · rw [if_pos h9] at h; exact absurd h (by simp)
  rw [if_neg h9] at h
  cases hea : expected_amount offer invreq with
  | error s =>
    rw [hea] at h
    exact absurd h (by simp)
  | ok ea =>
    rw [hea] at h
    change (if invreq.recurrence_counter.isSome ∧ inv.recurrence_basetime = none
            then (Except.error "recurrence_basetime" : Except String FetchResult)
            else Except.ok (build_result ps offer invreq inv ea)) = Except.ok res at h
    by_cases hbt : invreq.recurrence_counter.isSome ∧ inv.recurrence_basetime = none
    · rw [if_pos hbt] at h; exact absurd h (by simp)
    · rw [if_neg hbt] at h
      exact ⟨ea, rfl, (Except.ok.inj h).symm⟩

/-- C6: when the offer has an amount (below the u64 bound, as every decoded
u64 field is) and no currency, the expectation is `offer.amount` times the
request quantity with absent quantity read as 1, u64 overflow failing with
`"quantity overflow"`; otherwise there is no expectation; and the reported
`msat` change is the invoice amount exactly when there is no expectation or
the invoice amount differs from it, which is what a successful validation
puts into the `changes` record. -/
theorem expected_amount_and_msat_spec (sigOK : Invoice → Bool)
    (ps : Nat → Nat → Recurrence → Nat) (offer : Offer)
    (invreq : InvoiceRequest) (inv : Invoice) :
    (∀ a, offer.amount = some a → offer.currency = none → a < 2 ^ 64 →
      (if 2 ^ 64 ≤ a * invreq.quantity.getD 1
       then expected_amount offer invreq = .error "quantity overflow"
       else expected_amount offer invreq = .ok (some (a * invreq.quantity.getD 1))))
    ∧ ((offer.amount = none ∨ offer.currency ≠ none) →
        expected_amount offer invreq = .ok none)
    ∧ (∀ ea amt, (msat_change ea amt = some amt ↔ (ea = none ∨ ea ≠ some amt))
        ∧ (msat_change ea amt = none ↔ ea = some amt))
    ∧ (∀ res, process_invoice sigOK ps offer invreq inv = .ok res →
        ∃ ea, expected_amount offer invreq = .ok ea ∧
          res.changes.msat = msat_change ea (inv.amount.getD 0)) := by
  refine ⟨?_, ?_, ?_, ?_⟩
  · intro a hA hC hlt
    unfold expected_amount
    rw [hA, hC]
    cases hQ : invreq.quantity with
    | none =>
      have : ¬ 2 ^ 64 ≤ a * (none : Option Nat).getD 1 := by
        simp [Option.getD]; omega
      rw [if_neg this]
      simp [Option.getD]
    | some q =>
      by_cases hov : 2 ^ 64 ≤ a * q
      · rw [if_pos (show 2 ^ 64 ≤ a * Option.getD (some q) 1 from hov)]
        have hb : mul_overflows_u64 a q = true := by
          unfold mul_overflows_u64; exact decide_eq_true hov
        simp [hb]
      · rw [if_neg (show ¬ 2 ^ 64 ≤ a * Option.getD (some q) 1 from hov)]
        have hb : mul_overflows_u64 a q = false := by
          unfold mul_overflows_u64; exact decide_eq_false hov
        simp [hb]
  · intro h
    unfold expected_amount
    rcases h with h | h
    · rw [h]
    · cases hA : offer.amount with
      | none => rfl
      | some a =>
        cases hC : offer.currency with
        | none => exact absurd hC h
        | some c => rfl
  · intro ea amt
    unfold msat_change
    constructor
    · by_cases h : ea = some amt <;> simp [h]
    · by_cases h : ea = some amt <;> simp [h]
  · intro res hres
    obtain ⟨ea, hea, hr⟩ := process_invoice_ok sigOK ps offer invreq inv res hres
    exact ⟨ea, hea, by rw [hr]; rfl⟩

/-- A fixed-amount offer used to witness the amount calculations. -/
def c6Offer : Offer :=
  { node_id := some 1, description := some "d".toList, vendor := none,
    amount := some 1000, currency := none,
    quantity_min := some 1, quantity_max := some 10,
    recurrence := none, recurrence_base := none, recurrence_limit := none,
    absolute_expiry := none, send_invoice := false }

/-- A request for two units of `c6Offer`. -/
def c6Invreq : InvoiceRequest :=
  { offer_id := some [3], amount := none, quantity := some 2,
    recurrence_counter := none, recurrence_start := none,
    payer_key := some 5, payer_info := some [9],
    chains := [], features := [] }

/-- Witness for `expected_amount_and_msat_spec`: amount 1000 at quantity 2
expects 2000 msat. -/
theorem expected_amount_and_msat_spec_witness :
    expected_amount c6Offer c6Invreq = .ok (some 2000) := by
  have h := (expected_amount_and_msat_spec (fun _ => true) (fun b _ _ => b)
    c6Offer c6Invreq c1Inv).1 1000 rfl rfl (by decide)
  rw [if_neg (by decide)] at h
  exact h

/-- Follows the claim's words: for differing descriptions the change is
`description_appended` with the suffix when the invoice description begins
with the offer description verbatim and is strictly longer;
`description_removed` with the offer description when the invoice
description is absent; otherwise the full invoice description. -/
def claim_description_change (a b : Option Str) : Option DescChange :=
  match a, b with
  | none, none => none
  | some da, none => some (.removed da)
  | none, some db => some (.replaced db)
  | some da, some db =>
    if da <+: db ∧ da.length < db.length then some (.appended (db.drop da.length))
    else some (.replaced db)

/-- C7: whenever the invoice description differs from the offer's, the
emitted description change is exactly the claimed trichotomy. -/
theorem description_change_spec (a b : Option Str) (h : a ≠ b) :
    description_change a b = claim_description_change a b := by
  unfold description_change claim_description_change field_diff description_is_appended
  rcases a with _ | da <;> rcases b with _ | db
  · exact absurd rfl h
  · simp
  · simp
  · have hne : da ≠ db := fun e => h (by rw [e])
    simp only [Option.some.injEq, hne, if_false, if_neg hne]
    by_cases hl : db.length < da.length
    · have hnp : ¬(da <+: db ∧ da.length < db.length) := by
        rintro ⟨hp, _⟩
        exact absurd hp.length_le (by omega)
      simp [hl, hnp]
    · by_cases hp : db.take da.length = da
      · have hpre : da <+: db := by
          refine ⟨db.drop da.length, ?_⟩
          have hx := List.take_append_drop da.length db
          rw [hp] at hx
          exact hx
        have hlt : da.length < db.length := by
          rcases Nat.lt_or_ge da.length db.length with h' | h'
          · exact h'
          · exfalso
            have heq : da.length = db.length := by omega
            rw [heq, List.take_length] at hp
            exact hne hp.symm
        simp [hl, hp, hpre, hlt]
      · have hnp : ¬(da <+: db ∧ da.length < db.length) := by
          rintro ⟨⟨t, rfl⟩, _⟩
          simp at hp
        simp [hl, hp, hnp]

/-- Witness for `description_change_spec`: the spec's scenario S3, offer
description `coffee`, invoice description `coffee (decaf)`. -/
theorem description_change_spec_witness :
    description_change (some "coffee".toList) (some "coffee (decaf)".toList) =
      some (.appended " (decaf)".toList) := by
  rw [description_change_spec (some "coffee".toList) (some "coffee (decaf)".toList)
      (by decide)]
  decide

/-- C8: for an offer with recurrence, the reply carries a `next_period`
block exactly when the offer has no `recurrence_limit` or the next period
index is at most the limit, where `next_counter` is the request counter
plus one and the index is the request's `recurrence_start` (0 when unset)
plus `next_counter`; the block's counter is `next_counter`, its start time
is the period start of the index from the invoice's basetime, and its end
time is the start of the following period minus one; and this block is what
a successful validation puts into the result. -/
theorem next_period_spec (sigOK : Invoice → Bool) (ps : Nat → Nat → Recurrence → Nat)
    (offer : Offer) (invreq : InvoiceRequest) (inv : Invoice) (r : Recurrence)
    (basetime : Nat) (hr : offer.recurrence = some r) :
    (((next_period_block ps offer invreq basetime).isSome ↔
        (offer.recurrence_limit = none ∨
          ∃ lim, offer.recurrence_limit = some lim ∧
            invreq.recurrence_start.getD 0 + (invreq.recurrence_counter.getD 0 + 1) ≤ lim))
      ∧ (∀ np, next_period_block ps offer invreq basetime = some np →
          np.counter = invreq.recurrence_counter.getD 0 + 1 ∧
          np.starttime =
            ps basetime
              (invreq.recurrence_start.getD 0 + (invreq.recurrence_counter.getD 0 + 1)) r ∧
          np.endtime =
            ps basetime
              (invreq.recurrence_start.getD 0 + (invreq.recurrence_counter.getD 0 + 1) + 1) r
              - 1))
    ∧ (∀ res, process_invoice sigOK ps offer invreq inv = .ok res →
        res.next_period =
          next_period_block ps offer invreq (inv.recurrence_basetime.getD 0)) := by
  have hidx : (match invreq.recurrence_start with
               | some s => s + (invreq.recurrence_counter.getD 0 + 1)
               | none => invreq.recurrence_counter.getD 0 + 1) =
      invreq.recurrence_start.getD 0 + (invreq.recurrence_counter.getD 0 + 1) := by
    cases invreq.recurrence_start <;> simp
  constructor
  · simp only [next_period_block, hr, hidx]
    cases hL : offer.recurrence_limit with
    | none =>
      constructor
      · simp
      · intro np hnp
        simp only [if_true, Option.some.injEq] at hnp
        subst hnp
        exact ⟨rfl, rfl, rfl⟩
    | some lim =>
      constructor
      · by_cases hle :
          invreq.recurrence_start.getD 0 + (invreq.recurrence_counter.getD 0 + 1) ≤ lim
        · simp [hle]
        · simp [hle]
      · intro np hnp
        split at hnp
        · have hx := Option.some.inj hnp
          subst hx
          exact ⟨rfl, rfl, rfl⟩
        · simp at hnp
  · intro res hres
    obtain ⟨ea, hea, hrr⟩ := process_invoice_ok sigOK ps offer invreq inv res hres
    rw [hrr]
    rfl

/-- The spec's scenario S5 offer: 30-day recurrence from a fixed basetime. -/
def c8Offer : Offer :=
  { node_id := some 1, description := some "d".toList, vendor := none,
    amount := none, currency := none,
    quantity_min := none, quantity_max := none,
    recurrence := some ⟨1, 30⟩,
    recurrence_base := some ⟨0, 1600000000⟩, recurrence_limit := none,
    absolute_expiry := none, send_invoice := false }

/-- The S5 request: initial period, counter 0. -/
def c8Invreq : InvoiceRequest :=
  { offer_id := some [8], amount := some 10, quantity := none,
    recurrence_counter := some 0, recurrence_start := none,
    payer_key := some 5, payer_info := some [4],
    chains := [], features := [] }

/-- The period start function for 30-day periods: period `n` starts at
`basetime + n · 30 · 86400` seconds, matching the spec's S5 numbers. -/
def ps30days (basetime n : Nat) (r : Recurrence) : Nat :=
  basetime + n * r.period * 86400

/-- Witness for `next_period_spec`, on the S5 numbers: counter 1, start
`1600000000 + 30·86400`, end `1600000000 + 60·86400 − 1`. -/
theorem next_period_spec_witness :
    next_period_block ps30days c8Offer c8Invreq 1600000000 =
      some { counter := 1, starttime := 1600000000 + 30 * 86400,
             endtime := 1600000000 + 60 * 86400 - 1 } := by
  have h := (next_period_spec (fun _ => true) ps30days c8Offer c8Invreq c1Inv
    ⟨1, 30⟩ 1600000000 rfl).1.2
  cases hnp : next_period_block ps30days c8Offer c8Invreq 1600000000 with
  | none => exact absurd hnp (by decide)
  | some np =>
    obtain ⟨h1, h2, h3⟩ := h np hnp
    rw [show np = { counter := np.counter, starttime := np.starttime,
                    endtime := np.endtime } from rfl, h1, h2, h3]
    decide

/-- C9: an inbound onion message whose blinding matches an outstanding
request but which carries neither `invoice` nor `invoice_error` fails the
initiating command with `OFFER_BAD_INVREQ_REPLY`, while the hook itself
acknowledges the message to the transport. -/
theorem recv_no_payload_fails (sigOK : Invoice → Bool)
    (ps : Nat → Nat → Recurrence → Nat) (table : Nat → Option Sent)
    (m : OnionMessage) (b : Nat) (sent : Sent)
    (hb : m.blinding_in = some b) (ht : table b = some sent)
    (he : m.invoice_error = none) (hi : m.invoice = none) :
    recv_onion_message sigOK ps table m =
      ⟨true, some (.fail .offer_bad_invreq_reply
        "Neither invoice nor invoice_request_failed in reply")⟩ := by
  simp only [recv_onion_message, hb, ht, he, hi, Option.isSome_none,
             Bool.false_eq_true, if_false]

/-- Witness for `recv_no_payload_fails` at a concrete message and table. -/
theorem recv_no_payload_fails_witness :
    recv_onion_message (fun _ => true) ps30days
      (fun _ => some ⟨c8Offer, c8Invreq⟩)
      { blinding_in := some 42, invoice_error := none, invoice := none } =
      ⟨true, some (.fail .offer_bad_invreq_reply
        "Neither invoice nor invoice_request_failed in reply")⟩ :=
  recv_no_payload_fails (fun _ => true) ps30days
    (fun _ => some ⟨c8Offer, c8Invreq⟩)
    { blinding_in := some 42, invoice_error := none, invoice := none }
    42 ⟨c8Offer, c8Invreq⟩ rfl rfl rfl rfl

/-- The user parameters of `json_fetchinvoice`. -/
structure FetchParams where
  msatoshi : Option Nat
  quantity : Option Nat
  recurrence_counter : Option Nat
  recurrence_start : Option Nat
  recurrence_label : Option String
deriving DecidableEq, Repr

/-- The chain parameters consulted by the request builder. -/
structure ChainParams where
  network_name : String
  genesis : Bytes
deriving DecidableEq, Repr

/-- The amount rule of `json_fetchinvoice` (source lines 884-894): an offer
with an amount forbids the `msatoshi` parameter; one without requires it,
and its value becomes the request's `amount`. -/
def check_amount (offer : Offer) (msat : Option Nat) :
    Except (ErrCode × String) (Option Nat) :=
  match offer.amount with
  | some _ =>
    match msat with
    | some _ => .error (.invalid_params, "msatoshi parameter unnecessary")
    | none => .ok none
  | none =>
    match msat with
    | none => .error (.invalid_params, "msatoshi parameter required")
    | some v => .ok (some v)

/-- The quantity rule of `json_fetchinvoice` (source lines 903-921): when
either bound is present the parameter is required and each present bound is
enforced; otherwise the parameter is forbidden.  The lower bound is checked
only when `quantity_min` is present. -/
def check_quantity (offer : Offer) (q : Option Nat) :
    Except (ErrCode × String) Unit :=
  if offer.quantity_min.isSome || offer.quantity_max.isSome then
    match q with
    | none => .error (.invalid_params, "quantity parameter required")
    | some qv =>
      if offer.quantity_min.isSome && decide (qv < offer.quantity_min.getD 0) then
        .error (.invalid_params, "quantity must be >= " ++ toString (offer.quantity_min.getD 0))
      else if offer.quantity_max.isSome && decide (offer.quantity_max.getD 0 < qv) then
        .error (.invalid_params, "quantity must be <= " ++ toString (offer.quantity_max.getD 0))
      else .ok ()
  else
    match q with
    | some _ => .error (.invalid_params, "quantity parameter unnecessary")
    | none => .ok ()

/-- The recurrence rules of `json_fetchinvoice` (source lines 926-987). -/
def check_recurrence (offer : Offer) (p : FetchParams) :
    Except (ErrCode × String) Unit :=
  match offer.recurrence with
  | some _ =>
    if p.recurrence_counter = none then
      .error (.invalid_params, "needs recurrence_counter")
    else
      match (match offer.recurrence_base with
             | some rb => if rb.start_any_period ≠ 0 then
                 (if p.recurrence_start = none then
                    some ((.invalid_params, "needs recurrence_start") : ErrCode × String)
                  else none)
               else
                 (if p.recurrence_start ≠ none then
                    some (.invalid_params, "unnecessary recurrence_start")
                  else none)
             | none =>
                 if p.recurrence_start ≠ none then
                   some (.invalid_params, "unnecessary recurrence_start")
                 else none) with
      | some e => .error e
      | none =>
        if p.recurrence_label = none then
          .error (.invalid_params, "needs recurrence_label")
        else .ok ()
  | none =>
    if p.recurrence_counter ≠ none then
      .error (.invalid_params, "unnecessary recurrence_counter")
    else if p.recurrence_start ≠ none then
      .error (.invalid_params, "unnecessary recurrence_start")
    else .ok ()

/-- The command `json_fetchinvoice` up to the `createinvoicerequest` hand-off (source
lines 832-1012): set the offer id to the offer's merkle root (`merkleOf`
abstracts `merkle_tlv`), refuse `send_invoice` offers, refuse expired
offers, then apply the amount, quantity and recurrence rules and assemble
the invoice request with the chain and feature entries. -/
def fetchinvoice_build (merkleOf : Offer → Bytes) (chain : ChainParams)
    (features : Bytes) (now : Nat) (offer : Offer) (p : FetchParams) :
    Except (ErrCode × String) InvoiceRequest :=
  if offer.send_invoice then
    .error (.invalid_params, "Offer wants an invoice, not invoice_request")
  else if (match offer.absolute_expiry with
           | some e => decide (e < now)
           | none => false) then
    .error (.offer_expired, "Offer expired")
  else
    (check_amount offer p.msatoshi).bind fun amt =>
      (check_quantity offer p.quantity).bind fun _ =>
        (check_recurrence offer p).bind fun _ =>
          .ok { offer_id := some (merkleOf offer),
                amount := amt,
                quantity := p.quantity,
                recurrence_counter := p.recurrence_counter,
                recurrence_start := p.recurrence_start,
                payer_key := none, payer_info := none,
                chains := if chain.network_name ≠ "bitcoin" then [chain.genesis] else [],
                features := features }

/-- Reduction of `Except.bind` on a success. -/
theorem except_bind_ok {ε α β : Type} (a : α) (f : α → Except ε β) :
    (Except.ok a).bind f = f a := rfl

/-- Reduction of `Except.bind` on an error. -/
theorem except_bind_error {ε α β : Type} (e : ε) (f : α → Except ε β) :
    (Except.error e : Except ε α).bind f = .error e := rfl

/-- Auxiliary: a successful build fixes every component: the offer is not a
`send_invoice` offer, each rule passed, and the request is assembled from
the parameters. -/
theorem fetchinvoice_build_ok (merkleOf : Offer → Bytes) (chain : ChainParams)
    (features : Bytes) (now : Nat) (offer : Offer) (p : FetchParams)
    (r : InvoiceRequest)
    (h : fetchinvoice_build merkleOf chain features now offer p = .ok r) :
    offer.send_invoice = false ∧
    ∃ amt, check_amount offer p.msatoshi = .ok amt ∧
      check_quantity offer p.quantity = .ok () ∧
      check_recurrence offer p = .ok () ∧
      r = { offer_id := some (merkleOf offer), amount := amt,
            quantity := p.quantity,
            recurrence_counter := p.recurrence_counter,
            recurrence_start := p.recurrence_start,
            payer_key := none, payer_info := none,
            chains := if chain.network_name ≠ "bitcoin" then [chain.genesis] else [],
            features := features } := by
  unfold fetchinvoice_build at h
  by_cases hs : offer.send_invoice = true
  · rw [if_pos hs] at h; exact absurd h (by simp)
  rw [if_neg hs] at h
  have hs' : offer.send_invoice = false := by
    revert hs; cases offer.send_invoice <;> simp
  refine ⟨hs', ?_⟩
  split at h
  · exact absurd h (by simp)
  cases ha : check_amount offer p.msatoshi with
  | error e => rw [ha, except_bind_error] at h; exact absurd h (by simp)
  | ok amt =>
    rw [ha, except_bind_ok] at h
    cases hq : check_quantity offer p.quantity with
    | error e => rw [hq, except_bind_error] at h; exact absurd h (by simp)
    | ok u =>
      cases u
      rw [hq, except_bind_ok] at h
      cases hrec : check_recurrence offer p with
      | error e => rw [hrec, except_bind_error] at h; exact absurd h (by simp)
      | ok u2 =>
        cases u2
        rw [hrec, except_bind_ok] at h
        exact ⟨amt, rfl, rfl, rfl, (Except.ok.inj h).symm⟩

/-- Follows the claim's words (amended): the quantity parameter is accepted
iff — when either bound is present — a quantity was supplied and satisfies
each bound that is present, and — when neither bound is present — no
quantity was supplied.  (The claim's default of 1 for an absent
`quantity_min` is dropped: an absent bound is simply not enforced.) -/
def claim_quantity_ok (offer : Offer) (q : Option Nat) : Prop :=
  if offer.quantity_min.isSome || offer.quantity_max.isSome then
    ∃ qv, q = some qv ∧ (∀ m, offer.quantity_min = some m → m ≤ qv)
        ∧ (∀ M, offer.quantity_max = some M → qv ≤ M)
  else q = none

/-- C4 (amended): the quantity rule accepts exactly per
`claim_quantity_ok`, and a successful `fetchinvoice` build implies the rule
passed on its quantity parameter, which is copied into the request. -/
theorem fetchinvoice_quantity_spec (merkleOf : Offer → Bytes)
    (chain : ChainParams) (features : Bytes) (now : Nat) (offer : Offer)
    (p : FetchParams) (q : Option Nat) :
    (check_quantity offer q = .ok () ↔ claim_quantity_ok offer q)
    ∧ (∀ r, fetchinvoice_build merkleOf chain features now offer p = .ok r →
        check_quantity offer p.quantity = .ok () ∧ r.quantity = p.quantity) := by
  constructor
  · unfold check_quantity claim_quantity_ok
    cases hm : offer.quantity_min <;> cases hM : offer.quantity_max <;>
      cases q <;> simp [hm, hM] <;> split_ifs <;> simp_all <;> omega
  · intro r hr
    obtain ⟨-, amt, -, hq, -, hreq⟩ :=
      fetchinvoice_build_ok merkleOf chain features now offer p r hr
    exact ⟨hq, by rw [hreq]⟩

/-- An offer with only `quantity_max` set (and a fixed amount so no
`msatoshi` parameter is needed). -/
def c4Offer : Offer :=
  { node_id := some 1, description := some "d".toList, vendor := none,
    amount := some 5, currency := none,
    quantity_min := none, quantity_max := some 10,
    recurrence := none, recurrence_base := none, recurrence_limit := none,
    absolute_expiry := none, send_invoice := false }

/-- A fetch with quantity 0. -/
def c4Params : FetchParams :=
  { msatoshi := none, quantity := some 0, recurrence_counter := none,
    recurrence_start := none, recurrence_label := none }

/-- C4 (counterexample): with only `quantity_max` set, quantity 0 is
accepted — the build succeeds and the request carries quantity 0 — whereas
the claim says that an unspecified `quantity_min` defaults to 1 so quantity
0 must be rejected. -/
theorem fetchinvoice_quantity_counterexample :
    c4Offer.quantity_min = none ∧ c4Offer.quantity_max = some 10 ∧
    c4Params.quantity = some 0 ∧
    ∃ r, fetchinvoice_build (fun _ => []) ⟨"bitcoin", []⟩ [] 0 c4Offer c4Params =
        .ok r ∧ r.quantity = some 0 := by
  exact ⟨rfl, rfl, rfl, _, rfl, rfl⟩

/-- Witness for `fetchinvoice_quantity_spec`: quantity 2 is accepted for an
offer with bounds [1, 10]. -/
theorem fetchinvoice_quantity_spec_witness :
    check_quantity c6Offer (some 2) = .ok () := by
  apply (fetchinvoice_quantity_spec (fun _ => []) ⟨"bitcoin", []⟩ [] 0 c6Offer
    c4Params (some 2)).1.mpr
  show ∃ qv, (some 2 : Option Nat) = some qv ∧
      (∀ m, c6Offer.quantity_min = some m → m ≤ qv) ∧
      (∀ M, c6Offer.quantity_max = some M → qv ≤ M)
  refine ⟨2, rfl, ?_, ?_⟩
  · intro m hm
    have hm' : (some 1 : Option Nat) = some m := hm
    have := Option.some.inj hm'
    omega
  · intro M hM
    have hM' : (some 10 : Option Nat) = some M := hM
    have := Option.some.inj hM'
    omega

/-- Auxiliary: full characterization of the amount rule. -/
theorem check_amount_ok_iff (offer : Offer) (msat : Option Nat) (amt : Option Nat) :
    check_amount offer msat = .ok amt ↔
      ((offer.amount ≠ none ∧ msat = none ∧ amt = none) ∨
       (offer.amount = none ∧ ∃ v, msat = some v ∧ amt = some v)) := by
  unfold check_amount
  cases hA : offer.amount <;> cases hm : msat <;> simp [hA, hm] <;>
    constructor <;> intro h <;> simp_all <;> exact h.symm

/-- C5: if the offer omits `amount` the `msatoshi` parameter is required —
omitting it (or supplying it when the offer has an amount) makes the build
fail — and the built request's `amount` is the supplied value when the
offer omits `amount`, and absent otherwise. -/
theorem fetchinvoice_amount_spec (merkleOf : Offer → Bytes) (chain : ChainParams)
    (features : Bytes) (now : Nat) (offer : Offer) (p : FetchParams) :
    (((offer.amount = none ∧ p.msatoshi = none) ∨
      (offer.amount ≠ none ∧ p.msatoshi ≠ none)) →
      ∀ r, fetchinvoice_build merkleOf chain features now offer p ≠ .ok r)
    ∧ (∀ r, fetchinvoice_build merkleOf chain features now offer p = .ok r →
        r.amount = (if offer.amount = none then p.msatoshi else none)) := by
  constructor
  · rintro hcase r hok
    obtain ⟨-, amt, ha, -, -, -⟩ :=
      fetchinvoice_build_ok merkleOf chain features now offer p r hok
    rcases (check_amount_ok_iff offer p.msatoshi amt).mp ha with ⟨h1, h2, -⟩ | ⟨h1, v, h2, -⟩
    · rcases hcase with ⟨hc1, hc2⟩ | ⟨hc1, hc2⟩
      · exact h1 hc1
      · exact hc2 h2
    · rcases hcase with ⟨hc1, hc2⟩ | ⟨hc1, hc2⟩
      · rw [hc2] at h2; exact Option.noConfusion h2
      · exact hc1 h1
  · intro r hok
    obtain ⟨-, amt, ha, -, -, hreq⟩ :=
      fetchinvoice_build_ok merkleOf chain features now offer p r hok
    rcases (check_amount_ok_iff offer p.msatoshi amt).mp ha with ⟨h1, h2, h3⟩ | ⟨h1, v, h2, h3⟩
    · rw [hreq, if_neg h1]
      exact h3
    · rw [hreq, if_pos h1, h2]
      exact h3

/-- An offer without an amount and no other constrained field. -/
def c5Offer : Offer :=
  { node_id := some 1, description := some "d".toList, vendor := none,
    amount := none, currency := none,
    quantity_min := none, quantity_max := none,
    recurrence := none, recurrence_base := none, recurrence_limit := none,
    absolute_expiry := none, send_invoice := false }

/-- Fetch parameters supplying 7 msat for `c5Offer`. -/
def c5Params : FetchParams :=
  { msatoshi := some 7, quantity := none, recurrence_counter := none,
    recurrence_start := none, recurrence_label := none }

/-- Witness for `fetchinvoice_amount_spec`: the supplied 7 msat become the
request's amount. -/
theorem fetchinvoice_amount_spec_witness :
    ∃ r, fetchinvoice_build (fun _ => []) ⟨"bitcoin", []⟩ [] 0 c5Offer c5Params =
        .ok r ∧ r.amount = some 7 := by
  refine ⟨_, rfl, ?_⟩
  have h := (fetchinvoice_amount_spec (fun _ => []) ⟨"bitcoin", []⟩ [] 0
    c5Offer c5Params).2 _ rfl
  rw [h]
  rfl

/-- Offer lifecycle status in the wallet store (spec section 3's
`OfferRecord`). -/
inductive OfferStatus where
  | single_use
  | multiple_use
  | used
  | single_disabled
  | multiple_disabled
deriving DecidableEq, Repr

/-- Modelled from the spec: `offer_status_active` (declared in the wallet
headers, not under src/).  An offer is active when it can still be used,
i.e. `single_use` or `multiple_use`; `used` and the disabled states are not
active (spec section 3's status transitions and section 6's `active`
output field). -/
def offer_status_active : OfferStatus → Bool
  | .single_use => true
  | .multiple_use => true
  | _ => false

/-- Modelled from the spec: `wallet_offer_disable` (wallet store, not under
src/): the `*_use → *_disabled` transition of spec section 3. -/
def wallet_offer_disable : OfferStatus → OfferStatus
  | .single_use => .single_disabled
  | .multiple_use => .multiple_disabled
  | s => s

/-- The command `json_disableoffer` (offer.c lines 171-200), as a function of the wallet
lookup result for the requested offer id: unknown offers fail `LIGHTNINGD`;
offers that are not active fail `OFFER_ALREADY_DISABLED` with
"offer is not active"; otherwise the store transitions the status and the
command reports the new status. -/
def disableoffer (found : Option OfferStatus) :
    Except (ErrCode × String) OfferStatus :=
  match found with
  | none => .error (.lightningd, "Unknown offer")
  | some st =>
    if ¬ offer_status_active st then
      .error (.offer_already_disabled, "offer is not active")
    else .ok (wallet_offer_disable st)

/-- C3 (counterexample): disabling an already-disabled offer is not
idempotent — it fails with `OFFER_ALREADY_DISABLED` instead of
succeeding. -/
theorem disableoffer_counterexample :
    disableoffer (some .single_disabled) =
      .error (.offer_already_disabled, "offer is not active")
    ∧ ∀ st, disableoffer (some .single_disabled) ≠ .ok st := by
  constructor
  · rfl
  · intro st h
    exact Except.noConfusion h

/-- C3 (amended): `disableoffer` fails `LIGHTNINGD` on an unknown offer,
fails `OFFER_ALREADY_DISABLED` ("offer is not active") on every non-active
status — already-disabled offers and used offers alike — and succeeds
exactly on active offers, moving them to their disabled status. -/
theorem disableoffer_spec (found : Option OfferStatus) :
    (found = none → disableoffer found = .error (.lightningd, "Unknown offer"))
    ∧ (∀ st, found = some st → offer_status_active st = false →
        disableoffer found =
          .error (.offer_already_disabled, "offer is not active"))
    ∧ (∀ st, found = some st → offer_status_active st = true →
        disableoffer found = .ok (wallet_offer_disable st)) := by
  refine ⟨?_, ?_, ?_⟩
  · rintro rfl; rfl
  · rintro st rfl hst
    cases st <;> simp_all [disableoffer, offer_status_active]
  · rintro st rfl hst
    cases st <;> simp_all [disableoffer, offer_status_active]

/-- Witness for `disableoffer_spec`: an already-used (single-use) offer
fails with `OFFER_ALREADY_DISABLED`. -/
theorem disableoffer_spec_witness :
    disableoffer (some .used) =
      .error (.offer_already_disabled, "offer is not active") :=
  (disableoffer_spec (some .used)).2.1 .used rfl rfl

/-- Payment completion status (`PAYMENT_COMPLETE` and the rest). -/
inductive PaymentStatus where
  | pending
  | complete
  | failed
deriving DecidableEq, Repr

/-- One row of the payments store as `prev_payment` reads it: the payment
label, the decoded invoice of its `invstring` (`none` when there is no
invstring or it does not decode — both are skipped identically), and the
payment status. -/
structure Payment where
  label : Option String
  inv : Option Invoice
  status : PaymentStatus
deriving DecidableEq, Repr

/-- The u32 value `counter - 1`: the C subtraction wraps at `2^32`. -/
def counter_minus_one (c : Nat) : Nat := (c + (2 ^ 32 - 1)) % 2 ^ 32

/-- The per-payment `recurrence_start` consistency check of `prev_payment`
(offer.c lines 257-272), with the source's error messages. -/
def rstart_err (invreq : InvoiceRequest) (pinv : Invoice) :
    Option (ErrCode × String) :=
  match invreq.recurrence_start with
  | some s =>
    match pinv.recurrence_start with
    | none => some (.invalid_params, "unexpected recurrence_start")
    | some v =>
      if v ≠ s then
        some (.invalid_params, "recurrence_start was previously " ++ toString v)
      else none
  | none =>
    match pinv.recurrence_start with
    | some _ => some (.invalid_params, "missing recurrence_start")
    | none => none

/-- Whether a row's invoice marks the completed predecessor: its counter is
`counter - 1` and the payment is complete (offer.c lines 274-277). -/
def paid_prev_row (invreq : InvoiceRequest) (pinv : Invoice)
    (st : PaymentStatus) : Bool :=
  decide (pinv.recurrence_counter =
      some (counter_minus_one (invreq.recurrence_counter.getD 0))) &&
    decide (st = .complete)

/-- The scan loop of `prev_payment` (offer.c lines 222-292), carrying the
`payer_info` found so far and the `prev_paid` flag.  Rows with a different
or missing label, an undecodable invoice, a different offer id or no
recurrence counter are skipped; a `recurrence_start` inconsistency aborts
the command; otherwise the row may set `prev_paid` and its `payer_info`
(when present) replaces the one remembered so far.  After the loop: no
`payer_info` found fails "No previous payment attempted for this label and
offer"; an unpaid predecessor fails "previous invoice has not been paid". -/
def prev_payment_go (label : String) (invreq : InvoiceRequest) :
    List Payment → Option Bytes → Bool → Except (ErrCode × String) Bytes
  | [], payer_info, prev_paid =>
    match payer_info with
    | none => .error (.invalid_params,
        "No previous payment attempted for this label and offer")
    | some pi =>
      if prev_paid then .ok pi
      else .error (.invalid_params, "previous invoice has not been paid")
  | pay :: rest, payer_info, prev_paid =>
    match pay.label, pay.inv with
    | some l, some pinv =>
      if l ≠ label then prev_payment_go label invreq rest payer_info prev_paid
      else if pinv.offer_id ≠ invreq.offer_id then
        prev_payment_go label invreq rest payer_info prev_paid
      else if pinv.recurrence_counter = none then
        prev_payment_go label invreq rest payer_info prev_paid
      else
        match rstart_err invreq pinv with
        | some e => .error e
        | none =>
          prev_payment_go label invreq rest
            (match pinv.payer_info with
             | some pi => some pi
             | none => payer_info)
            (prev_paid || paid_prev_row invreq pinv pay.status)
    | _, _ => prev_payment_go label invreq rest payer_info prev_paid

/-- The function `prev_payment` (offer.c lines 212-294): scan the whole payments list
with nothing found yet. -/
def prev_payment (label : String) (invreq : InvoiceRequest)
    (payments : List Payment) : Except (ErrCode × String) Bytes :=
  prev_payment_go label invreq payments none false

/-- The rows `prev_payment` considers: same label, decodable invoice, same
offer id, recurrence counter present. -/
def pp_matches (label : String) (invreq : InvoiceRequest) (pay : Payment) :
    Bool :=
  match pay.label, pay.inv with
  | some l, some pinv =>
    decide (l = label) && decide (pinv.offer_id = invreq.offer_id) &&
      pinv.recurrence_counter.isSome
  | _, _ => false

/-- The matching rows, in store order. -/
def matching_rows (label : String) (invreq : InvoiceRequest) :
    List Payment → List Payment
  | [] => []
  | pay :: rest =>
    if pp_matches label invreq pay then
      pay :: matching_rows label invreq rest
    else matching_rows label invreq rest

/-- The `payer_info` of the last row (of the given list) whose invoice
carries one. -/
def lastPayerInfo : List Payment → Option Bytes
  | [] => none
  | pay :: rest =>
    match lastPayerInfo rest with
    | some pi => some pi
    | none =>
      match pay.inv with
      | some pinv => pinv.payer_info
      | none => none

/-- Whether some row of the list is the completed predecessor. -/
def has_paid_prev (invreq : InvoiceRequest) : List Payment → Bool
  | [] => false
  | pay :: rest =>
    (match pay.inv with
     | some pinv => paid_prev_row invreq pinv pay.status
     | none => false) || has_paid_prev invreq rest

/-- The first `recurrence_start` inconsistency among the rows. -/
def first_rstart_err (invreq : InvoiceRequest) :
    List Payment → Option (ErrCode × String)
  | [] => none
  | pay :: rest =>
    match (match pay.inv with
           | some pinv => rstart_err invreq pinv
           | none => none) with
    | some e => some e
    | none => first_rstart_err invreq rest

/-- The declarative outcome of the scan over the matching rows, given the
state accumulated so far: the first `recurrence_start` inconsistency wins;
otherwise the reused `payer_info` is the last one present among the rows
(falling back to the accumulator), failing "No previous payment attempted
for this label and offer" when there is none, and "previous invoice has not
been paid" when no row is the completed predecessor. -/
def pp_outcome (invreq : InvoiceRequest) (rows : List Payment)
    (acc : Option Bytes) (paid : Bool) : Except (ErrCode × String) Bytes :=
  match first_rstart_err invreq rows with
  | some e => .error e
  | none =>
    match (match lastPayerInfo rows with
           | some pi => some pi
           | none => acc) with
    | none => .error (.invalid_params,
        "No previous payment attempted for this label and offer")
    | some pi =>
      if paid || has_paid_prev invreq rows then .ok pi
      else .error (.invalid_params, "previous invoice has not been paid")

/-- Unfolding of `matching_rows` on a cons cell. -/
theorem matching_rows_cons (label : String) (invreq : InvoiceRequest)
    (pay : Payment) (rest : List Payment) :
    matching_rows label invreq (pay :: rest) =
      if pp_matches label invreq pay then pay :: matching_rows label invreq rest
      else matching_rows label invreq rest := rfl

/-- Scanning a non-matching row changes nothing. -/
theorem prev_payment_go_skip (label : String) (invreq : InvoiceRequest)
    (pay : Payment) (rest : List Payment) (acc : Option Bytes) (paid : Bool)
    (hm : pp_matches label invreq pay = false) :
    prev_payment_go label invreq (pay :: rest) acc paid =
      prev_payment_go label invreq rest acc paid := by
  cases hLab : pay.label with
  | none => simp only [prev_payment_go, hLab]
  | some l =>
    cases hInv : pay.inv with
    | none => simp only [prev_payment_go, hLab, hInv]
    | some pinv =>
      unfold pp_matches at hm
      rw [hLab, hInv] at hm
      simp only [prev_payment_go, hLab, hInv]
      by_cases h1 : l ≠ label
      · rw [if_pos h1]
      · rw [if_neg h1]
        push_neg at h1
        by_cases h2 : pinv.offer_id ≠ invreq.offer_id
        · rw [if_pos h2]
        · rw [if_neg h2]
          push_neg at h2
          by_cases h3 : pinv.recurrence_counter = none
          · rw [if_pos h3]
          · exfalso
            simp [h1, h2, Option.isSome_iff_ne_none.mpr h3] at hm

/-- Scanning a matching row aborts on a `recurrence_start` inconsistency
and otherwise continues with the updated accumulator and paid flag. -/
theorem prev_payment_go_step (label : String) (invreq : InvoiceRequest)
    (pay : Payment) (rest : List Payment) (acc : Option Bytes) (paid : Bool)
    (l : String) (pinv : Invoice)
    (hLab : pay.label = some l) (hInv : pay.inv = some pinv)
    (hm : pp_matches label invreq pay = true) :
    prev_payment_go label invreq (pay :: rest) acc paid =
      (match rstart_err invreq pinv with
       | some e => .error e
       | none =>
         prev_payment_go label invreq rest
           (match pinv.payer_info with
            | some pi => some pi
            | none => acc)
           (paid || paid_prev_row invreq pinv pay.status)) := by
  unfold pp_matches at hm
  rw [hLab, hInv] at hm
  have h1 : l = label := by
    by_contra hne
    simp [hne] at hm
  have h2 : pinv.offer_id = invreq.offer_id := by
    by_contra hne
    simp [hne] at hm
  have h3 : pinv.recurrence_counter ≠ none := by
    intro hne
    simp [hne] at hm
  simp only [prev_payment_go, hLab, hInv]
  rw [if_neg (show ¬ l ≠ label from fun hc => hc h1),
      if_neg (show ¬ pinv.offer_id ≠ invreq.offer_id from fun hc => hc h2),
      if_neg h3]

/-- The declarative outcome unfolded over a matching row. -/
theorem pp_outcome_cons (invreq : InvoiceRequest) (pay : Payment)
    (rows : List Payment) (acc : Option Bytes) (paid : Bool) (pinv : Invoice)
    (hInv : pay.inv = some pinv) :
    pp_outcome invreq (pay :: rows) acc paid =
      (match rstart_err invreq pinv with
       | some e => .error e
       | none =>
         pp_outcome invreq rows
           (match pinv.payer_info with
            | some pi => some pi
            | none => acc)
           (paid || paid_prev_row invreq pinv pay.status)) := by
  unfold pp_outcome
  simp only [first_rstart_err, lastPayerInfo, has_paid_prev, hInv]
  cases hre : rstart_err invreq pinv with
  | some e => rfl
  | none =>
    cases hlp : lastPayerInfo rows with
    | some pi =>
      cases hfe : first_rstart_err invreq rows with
      | some e => rfl
      | none => simp [Bool.or_assoc]
    | none =>
      cases hpi : pinv.payer_info with
      | some pi =>
        cases hfe : first_rstart_err invreq rows with
        | some e => rfl
        | none => simp [Bool.or_assoc]
      | none =>
        cases hfe : first_rstart_err invreq rows with
        | some e => rfl
        | none =>
          cases acc with
          | none => rfl
          | some a => simp [Bool.or_assoc]

/-- C2 (amended, loop invariant): the scan loop equals the declarative
outcome over the matching rows. -/
theorem prev_payment_go_spec (label : String) (invreq : InvoiceRequest)
    (payments : List Payment) :
    ∀ acc paid, prev_payment_go label invreq payments acc paid =
      pp_outcome invreq (matching_rows label invreq payments) acc paid := by
  induction payments with
  | nil => intro acc paid; cases acc <;> cases paid <;> rfl
  | cons pay rest ih =>
    intro acc paid
    by_cases hm : pp_matches label invreq pay = true
    · obtain ⟨l, hLab⟩ : ∃ l, pay.label = some l := by
        unfold pp_matches at hm
        cases hL : pay.label
        · rw [hL] at hm
          cases hI : pay.inv <;> rw [hI] at hm <;> simp at hm
        · exact ⟨_, rfl⟩
      obtain ⟨pinv, hInv⟩ : ∃ pinv, pay.inv = some pinv := by
        unfold pp_matches at hm
        cases hI : pay.inv
        · rw [hLab, hI] at hm; simp at hm
        · exact ⟨_, rfl⟩
      rw [prev_payment_go_step label invreq pay rest acc paid l pinv hLab hInv hm,
          matching_rows_cons, if_pos hm,
          pp_outcome_cons invreq pay (matching_rows label invreq rest) acc paid pinv hInv]
      cases rstart_err invreq pinv with
      | some e => rfl
      | none => exact ih _ _
    · have hm' : pp_matches label invreq pay = false := by
        revert hm; cases pp_matches label invreq pay <;> simp
      rw [prev_payment_go_skip label invreq pay rest acc paid hm',
          matching_rows_cons, if_neg hm]
      exact ih acc paid

/-- C2 (amended): `prev_payment` fails with the first `recurrence_start`
inconsistency among the matching payments (same label, decodable invoice,
same offer id, recurrence counter present); otherwise it fails "No previous
payment attempted for this label and offer" when no matching payment
carries a `payer_info`, fails "previous invoice has not been paid" when no
matching payment with counter `counter - 1` is complete, and otherwise
succeeds returning the `payer_info` of the **last** matching payment that
carries one — not necessarily that of the completed predecessor. -/
theorem prev_payment_spec (label : String) (invreq : InvoiceRequest)
    (payments : List Payment) :
    prev_payment label invreq payments =
      pp_outcome invreq (matching_rows label invreq payments) none false :=
  prev_payment_go_spec label invreq payments none false

/-- A recurring request for counter 1 (offer id `[9]`), payer fields
unfilled. -/
def c2Invreq : InvoiceRequest :=
  { offer_id := some [9], amount := none, quantity := none,
    recurrence_counter := some 1, recurrence_start := none,
    payer_key := none, payer_info := none, chains := [], features := [] }

/-- The completed counter-0 invoice with payer_info `[1]`. -/
def c2Inv0 : Invoice :=
  { node_id := some 1, signature := none, amount := some 1,
    offer_id := some [9], quantity := none, recurrence_counter := some 0,
    recurrence_start := none, payer_key := none, payer_info := some [1],
    recurrence_basetime := none, description := none, vendor := none }

/-- A later, unpaid counter-5 invoice with payer_info `[2]`. -/
def c2Inv5 : Invoice :=
  { node_id := some 1, signature := none, amount := some 1,
    offer_id := some [9], quantity := none, recurrence_counter := some 5,
    recurrence_start := none, payer_key := none, payer_info := some [2],
    recurrence_basetime := none, description := none, vendor := none }

/-- A payments store with the completed predecessor first and an unrelated
later payment for the same label and offer after it. -/
def c2Payments : List Payment :=
  [ { label := some "sub", inv := some c2Inv0, status := .complete },
    { label := some "sub", inv := some c2Inv5, status := .pending } ]

/-- C2 (counterexample): the only payment with counter `1 - 1 = 0` and
status complete carries payer_info `[1]`, yet `prev_payment` succeeds
returning `[2]` — the payer_info of the *last* matching payment — so the
claim that "that payment's payer_info is reused verbatim" fails. -/
theorem prev_payment_counterexample :
    prev_payment "sub" c2Invreq c2Payments = .ok [2]
    ∧ c2Inv0.recurrence_counter = some 0
    ∧ c2Payments.head?.map Payment.status = some .complete
    ∧ c2Inv0.payer_info = some [1]
    ∧ ([2] : Bytes) ≠ [1] := by
  refine ⟨rfl, rfl, rfl, rfl, by decide⟩

/-- The parameter check `param_b12_invreq` (offer.c lines 296-316): the supplied bolt12 request
must not already carry `payer_info` or `payer_key`. -/
def param_b12_invreq (invreq : InvoiceRequest) :
    Except (ErrCode × String) InvoiceRequest :=
  if invreq.payer_info.isSome then
    .error (.invalid_params, "must not have payer_info")
  else if invreq.payer_key.isSome then
    .error (.invalid_params, "must not have payer_key")
  else .ok invreq

/-- The tail of `json_createinvoicerequest` (offer.c lines 348-381): mint a
fresh `payer_info` when none was filled in from a prior payment, then
derive the `payer_key` by tweaking. -/
def fill_payer (tweak : Bytes → Option Nat) (fresh : Bytes)
    (invreq1 : InvoiceRequest) : Except (ErrCode × String) InvoiceRequest :=
  let invreq2 := if invreq1.payer_info = none
                 then { invreq1 with payer_info := some fresh }
                 else invreq1
  match tweak (invreq2.payer_info.getD []) with
  | none => .error (.invalid_params, "Invalid tweak")
  | some k => .ok { invreq2 with payer_key := some k }

/-- The command `json_createinvoicerequest` (offer.c lines 318-421), up to the
recurrence-signature HSM round trip (which adds a signature but changes no
field modelled here): parameter check, recurrence label and prior-payment
handling, then `fill_payer`.  `fresh` stands for the 16 freshly drawn
random bytes; `tweak` stands for the x-only tweak of the node's payer base
key by `SHA256(base || payer_info)`, returning `none` when
`secp256k1_xonly_pubkey_tweak_add` or the x-only conversion fails (both
surface as invalid-params errors in the source). -/
def createinvoicerequest (tweak : Bytes → Option Nat) (fresh : Bytes)
    (payments : List Payment) (invreq0 : InvoiceRequest)
    (label : Option String) : Except (ErrCode × String) InvoiceRequest :=
  (param_b12_invreq invreq0).bind fun invreq =>
    ((match invreq.recurrence_counter with
      | none => Except.ok invreq
      | some c =>
        match label with
        | none => Except.error (ErrCode.invalid_params,
            "Need payment label for recurring payments")
        | some l =>
          if c ≠ 0 then
            (prev_payment l invreq payments).bind fun pi =>
              Except.ok { invreq with payer_info := some pi }
          else Except.ok invreq :
        Except (ErrCode × String) InvoiceRequest)).bind
      (fill_payer tweak fresh)

/-- Auxiliary: a request that passes the parameter check is unchanged and
carried no payer fields. -/
theorem param_b12_invreq_ok (i i' : InvoiceRequest)
    (h : param_b12_invreq i = .ok i') :
    i' = i ∧ i.payer_info = none ∧ i.payer_key = none := by
  unfold param_b12_invreq at h
  by_cases h1 : i.payer_info.isSome = true
  · rw [if_pos h1] at h; exact absurd h (by simp)
  · rw [if_neg h1] at h
    by_cases h2 : i.payer_key.isSome = true
    · rw [if_pos h2] at h; exact absurd h (by simp)
    · rw [if_neg h2] at h
      refine ⟨(Except.ok.inj h).symm, ?_, ?_⟩
      · cases hx : i.payer_info with
        | none => rfl
        | some v => rw [hx] at h1; simp at h1
      · cases hx : i.payer_key with
        | none => rfl
        | some v => rw [hx] at h2; simp at h2

/-- Auxiliary: elimination for a matching row. -/
theorem pp_matches_elim (label : String) (invreq : InvoiceRequest)
    (pay : Payment) (hm : pp_matches label invreq pay = true) :
    ∃ l pinv, pay.label = some l ∧ pay.inv = some pinv := by
  unfold pp_matches at hm
  cases hL : pay.label with
  | none =>
    rw [hL] at hm
    cases hI : pay.inv <;> rw [hI] at hm <;> simp at hm
  | some l =>
    cases hI : pay.inv with
    | none => rw [hL, hI] at hm; simp at hm
    | some pinv => exact ⟨l, pinv, rfl, rfl⟩

/-- Auxiliary: a successful scan returns either the initial accumulator or
the `payer_info` of some stored payment's invoice. -/
theorem prev_payment_go_mem (label : String) (invreq : InvoiceRequest)
    (payments : List Payment) :
    ∀ acc paid pi, prev_payment_go label invreq payments acc paid = .ok pi →
      acc = some pi ∨ ∃ pay ∈ payments, ∃ pinv, pay.inv = some pinv ∧
        pinv.payer_info = some pi := by
  induction payments with
  | nil =>
    intro acc paid pi h
    unfold prev_payment_go at h
    cases acc with
    | none => simp at h
    | some x =>
      cases paid with
      | false => simp at h
      | true =>
        simp at h
        exact Or.inl (by rw [h])
  | cons pay rest ih =>
    intro acc paid pi h
    by_cases hm : pp_matches label invreq pay = true
    · obtain ⟨l, pinv, hLab, hInv⟩ := pp_matches_elim label invreq pay hm
      rw [prev_payment_go_step label invreq pay rest acc paid l pinv hLab hInv hm] at h
      cases hre : rstart_err invreq pinv with
      | some e => rw [hre] at h; simp at h
      | none =>
        rw [hre] at h
        have h' : prev_payment_go label invreq rest
            (match pinv.payer_info with
             | some x => some x
             | none => acc)
            (paid || paid_prev_row invreq pinv pay.status) = .ok pi := h
        rcases ih _ _ _ h' with hacc | ⟨pay', hmem, pinv', hInv', hpi'⟩
        · cases hpi : pinv.payer_info with
          | some y =>
            have hy : some y = some pi := by rw [hpi] at hacc; exact hacc
            right
            exact ⟨pay, List.mem_cons_self pay rest, pinv, hInv,
              by rw [hpi, Option.some.inj hy]⟩
          | none =>
            have hy : acc = some pi := by rw [hpi] at hacc; exact hacc
            exact Or.inl hy
        · right
          exact ⟨pay', List.mem_cons_of_mem pay hmem, pinv', hInv', hpi'⟩
    · have hm' : pp_matches label invreq pay = false := by
        revert hm; cases pp_matches label invreq pay <;> simp
      rw [prev_payment_go_skip label invreq pay rest acc paid hm'] at h
      rcases ih _ _ _ h with hacc | ⟨pay', hmem, pinv', hInv', hpi'⟩
      · exact Or.inl hacc
      · right
        exact ⟨pay', List.mem_cons_of_mem pay hmem, pinv', hInv', hpi'⟩

/-- Auxiliary: a successful `fill_payer` produced a request whose
`payer_key` is the tweak of its `payer_info`, which is either the fresh
bytes (when none had been filled in) or the one already present. -/
theorem fill_payer_ok (tweak : Bytes → Option Nat) (fresh : Bytes)
    (invreq1 r : InvoiceRequest) (h : fill_payer tweak fresh invreq1 = .ok r) :
    ∃ pi, r.payer_info = some pi ∧ r.payer_key = tweak pi ∧
      ((invreq1.payer_info = none ∧ pi = fresh) ∨
        invreq1.payer_info = some pi) := by
  simp only [fill_payer] at h
  by_cases hn : invreq1.payer_info = none
  · simp only [if_pos hn] at h
    have hg : ({ invreq1 with payer_info := some fresh } :
        InvoiceRequest).payer_info.getD [] = fresh := rfl
    rw [hg] at h
    cases ht : tweak fresh with
    | none => rw [ht] at h; simp at h
    | some k =>
      rw [ht] at h
      have hr := Except.ok.inj h
      refine ⟨fresh, ?_, ?_, Or.inl ⟨hn, rfl⟩⟩
      · rw [← hr]
      · rw [← hr, ht]
  · simp only [if_neg hn] at h
    cases hpi : invreq1.payer_info with
    | none => exact absurd hpi hn
    | some pi =>
      have hg : invreq1.payer_info.getD [] = pi := by rw [hpi]; rfl
      rw [hg] at h
      cases ht : tweak pi with
      | none => rw [ht] at h; simp at h
      | some k =>
        rw [ht] at h
        have hr := Except.ok.inj h
        refine ⟨pi, ?_, ?_, Or.inr rfl⟩
        · rw [← hr]; exact hpi
        · rw [← hr, ht]

/-- C10: `createinvoicerequest` rejects a bolt12 request that already
carries `payer_info` (or, with that absent, `payer_key`) with the
corresponding invalid-parameter error; on success the input carried
neither, the result's `payer_key` is the node's tweak of the result's
`payer_info`, and that `payer_info` is either the freshly minted bytes or
one stored in the node's own payments store — never taken from the
caller's input. -/
theorem createinvoicerequest_payer_spec (tweak : Bytes → Option Nat)
    (fresh : Bytes) (payments : List Payment) (invreq0 : InvoiceRequest)
    (label : Option String) :
    (invreq0.payer_info.isSome = true →
      createinvoicerequest tweak fresh payments invreq0 label =
        .error (.invalid_params, "must not have payer_info"))
    ∧ (invreq0.payer_info = none → invreq0.payer_key.isSome = true →
      createinvoicerequest tweak fresh payments invreq0 label =
        .error (.invalid_params, "must not have payer_key"))
    ∧ (∀ r, createinvoicerequest tweak fresh payments invreq0 label = .ok r →
        invreq0.payer_info = none ∧ invreq0.payer_key = none ∧
        ∃ pi, r.payer_info = some pi ∧ r.payer_key = tweak pi ∧
          (pi = fresh ∨ ∃ pay ∈ payments, ∃ pinv, pay.inv = some pinv ∧
            pinv.payer_info = some pi)) := by
  refine ⟨?_, ?_, ?_⟩
  · intro h
    unfold createinvoicerequest param_b12_invreq
    rw [if_pos h]
    rfl
  · intro h1 h2
    unfold createinvoicerequest param_b12_invreq
    rw [if_neg (by simp [h1]), if_pos h2]
    rfl
  · intro r h
    unfold createinvoicerequest at h
    cases hp : param_b12_invreq invreq0 with
    | error e => rw [hp, except_bind_error] at h; exact absurd h (by simp)
    | ok invreq =>
      obtain ⟨rfl, hpinone, hpknone⟩ := param_b12_invreq_ok invreq0 invreq hp
      refine ⟨hpinone, hpknone, ?_⟩
      simp only [hp, except_bind_ok] at h
      cases hc : invreq.recurrence_counter with
      | none =>
        simp only [hc, except_bind_ok] at h
        obtain ⟨pi, hpi, hpk, hsrc⟩ := fill_payer_ok tweak fresh invreq r h
        refine ⟨pi, hpi, hpk, ?_⟩
        rcases hsrc with ⟨-, rfl⟩ | hsome
        · exact Or.inl rfl
        · rw [hpinone] at hsome
          exact absurd hsome (by simp)
      | some c =>
        cases hl : label with
        | none =>
          simp only [hc, hl, except_bind_error] at h
          exact absurd h (by simp)
        | some l =>
          by_cases hc0 : c ≠ 0
          · simp only [hc, hl, if_pos hc0] at h
            cases hpp : prev_payment l invreq payments with
            | error e =>
              rw [hpp, except_bind_error, except_bind_error] at h
              exact absurd h (by simp)
            | ok pi' =>
              simp only [hpp, except_bind_ok] at h
              obtain ⟨pi, hpi, hpk, hsrc⟩ := fill_payer_ok tweak fresh _ r h
              refine ⟨pi, hpi, hpk, ?_⟩
              rcases hsrc with ⟨hnone, rfl⟩ | hsome
              · exact absurd hnone (by simp)
              · have hpi' : pi' = pi := Option.some.inj hsome
                subst hpi'
                right
                rcases prev_payment_go_mem l invreq payments none false pi' hpp
                  with hacc | hmem
                · exact absurd hacc (by simp)
                · exact hmem
          · simp only [hc, hl, if_neg hc0, except_bind_ok] at h
            obtain ⟨pi, hpi, hpk, hsrc⟩ := fill_payer_ok tweak fresh invreq r h
            refine ⟨pi, hpi, hpk, ?_⟩
            rcases hsrc with ⟨-, rfl⟩ | hsome
            · exact Or.inl rfl
            · rw [hpinone] at hsome
              exact absurd hsome (by simp)

/-- Witness for `createinvoicerequest_payer_spec`: a request already
carrying a `payer_key` is rejected. -/
theorem createinvoicerequest_payer_spec_witness :
    createinvoicerequest (fun _ => some 9) [0] []
      { offer_id := some [9], amount := none, quantity := none,
        recurrence_counter := none, recurrence_start := none,
        payer_key := some 3, payer_info := none, chains := [], features := [] }
      none =
      .error (.invalid_params, "must not have payer_key") :=
  (createinvoicerequest_payer_spec (fun _ => some 9) [0] []
    { offer_id := some [9], amount := none, quantity := none,
      recurrence_counter := none, recurrence_start := none,
      payer_key := some 3, payer_info := none, chains := [], features := [] }
    none).2.1 rfl rfl
